import Mathlib

/-!
Verification of the payments-engine transaction processor
(`src/lib/transaction.rs`, `src/lib/bank.rs`, `src/lib/shared_types.rs`).

The Rust ledger keeps two hash maps behind mutexes: `transactions`
(`TxId -> Tx`) and `accounts` (`ClientId -> Account`).  `Tx::process`
takes one record and mutates the bank in place.  We embed the maps as
functions into `Option` and `process` as a pure state transformer; all
amount arithmetic is `i64` in the source and embedded as `Int`
(the source performs no wrapping-dependent arithmetic at the scales it
documents).
-/

/-- `ClientId = u16` in `shared_types.rs`; used only as a map key. -/
abbrev ClientId := Nat

/-- `TxId = u32` in `shared_types.rs`; used only as a map key. -/
abbrev TxId := Nat

/-- `AmountValue = i64` in `shared_types.rs`. -/
abbrev AmountValue := Int

/-- `Amount` from `shared_types.rs`: a scaled integer number of 1/10000ths. -/
structure Amount where
  value : AmountValue
deriving DecidableEq, Repr

/-- `Amount::new` from `shared_types.rs`. -/
def Amount.new : Amount := ⟨0⟩

/-- `TxType` from `transaction.rs`. -/
inductive TxType where
  | deposit
  | withdrawal
  | dispute
  | resolve
  | chargeback
deriving DecidableEq, Repr

/-- `Tx` from `transaction.rs`: one transaction record. -/
structure Tx where
  type_ : TxType
  client : ClientId
  tx : TxId
  amount : Amount
  disputed : Bool
deriving DecidableEq, Repr

/-- `Account` from `bank.rs`. -/
structure Account where
  client : ClientId
  available : Amount
  held : Amount
  total : Amount
  locked : Bool
deriving DecidableEq, Repr

/-- `Account::new` from `bank.rs`. -/
def Account.new (client : ClientId) : Account :=
  { client := client
    available := Amount.new
    held := Amount.new
    total := Amount.new
    locked := false }

/-- `Account::calculate_total` from `bank.rs`: `total = available + held`. -/
def Account.calculate_total (a : Account) : Account :=
  { a with total := ⟨a.available.value + a.held.value⟩ }

/-- `Bank` from `bank.rs`: the two maps (hash maps embedded as functions). -/
structure Bank where
  transactions : TxId → Option Tx
  accounts : ClientId → Option Account

/-- `Bank::new` from `bank.rs`: both maps empty. -/
def Bank.new : Bank :=
  { transactions := fun _ => none, accounts := fun _ => none }

/-- `HashMap::insert`: point update of a map embedded as a function. -/
def mapUpdate {α : Type} (m : Nat → Option α) (k : Nat) (v : α) :
    Nat → Option α :=
  fun k' => if k' = k then some v else m k'

/-- The `match self.type_` dispatch block of `Tx::process`
(`transaction.rs` lines 45..87): given the resolved account and the
current transactions map, returns their new values. -/
def dispatch (r : Tx) (account : Account) (txs : TxId → Option Tx) :
    Account × (TxId → Option Tx) :=
  match r.type_ with
  | TxType.deposit =>
      ({ account with available := ⟨account.available.value + r.amount.value⟩ },
       txs)
  | TxType.withdrawal =>
      (if account.available.value ≥ r.amount.value then
        { account with available := ⟨account.available.value - r.amount.value⟩ }
      else account, txs)
  | TxType.dispute =>
      match txs r.tx with
      | some dtx =>
          ({ account with
              available := ⟨account.available.value - dtx.amount.value⟩
              held := ⟨account.held.value + dtx.amount.value⟩ },
           mapUpdate txs r.tx { dtx with disputed := true })
      | none => (account, txs)
  | TxType.resolve =>
      match txs r.tx with
      | some dtx =>
          if dtx.disputed then
            ({ account with
                available := ⟨account.available.value + dtx.amount.value⟩
                held := ⟨account.held.value - dtx.amount.value⟩ },
             mapUpdate txs r.tx { dtx with disputed := false })
          else (account, txs)
      | none => (account, txs)
  | TxType.chargeback =>
      match txs r.tx with
      | some dtx =>
          if dtx.disputed then
            ({ account with
                locked := true
                held := ⟨account.held.value - dtx.amount.value⟩ },
           txs)
          else (account, txs)
      | none => (account, txs)

/-- The tail of `Tx::process` (`transaction.rs` lines 88..90): Deposit and
Withdrawal records are inserted into the transaction history, others not. -/
def storeIfBalanceTx (r : Tx) (txs : TxId → Option Tx) : TxId → Option Tx :=
  match r.type_ with
  | TxType.deposit => mapUpdate txs r.tx r
  | TxType.withdrawal => mapUpdate txs r.tx r
  | _ => txs

/-- The body of `Tx::process` once the (possibly freshly created) account
has been resolved: dispatch, write the account back, store the record. -/
def applyTx (r : Tx) (account : Account) (bank : Bank) : Bank :=
  let res := dispatch r account bank.transactions
  { accounts := mapUpdate bank.accounts r.client res.1
    transactions := storeIfBalanceTx r res.2 }

/-- `Tx::process` from `transaction.rs`: resolve the account for
`r.client` (create if absent), return early when it is locked, otherwise
dispatch and store. -/
def process (r : Tx) (bank : Bank) : Bank :=
  match bank.accounts r.client with
  | some acc => if acc.locked then bank else applyTx r acc bank
  | none => applyTx r (Account.new r.client) bank

/-- Sequential replay of a record stream, as the per-worker loop of
`Bank::process_transactions_from_csv_path` does. -/
def processAll (recs : List Tx) (bank : Bank) : Bank :=
  match recs with
  | [] => bank
  | r :: rs => processAll rs (process r bank)

/-- The account observed for a client: the stored one, or the fresh
account a first reference would create. -/
def Bank.accountOf (bank : Bank) (c : ClientId) : Account :=
  (bank.accounts c).getD (Account.new c)

/-- Observed `available` balance of a client. -/
def availOf (bank : Bank) (c : ClientId) : Int :=
  (bank.accountOf c).available.value

/-- Observed `held` balance of a client. -/
def heldOf (bank : Bank) (c : ClientId) : Int :=
  (bank.accountOf c).held.value

/-- Observed `locked` flag of a client. -/
def lockedOf (bank : Bank) (c : ClientId) : Bool :=
  (bank.accountOf c).locked

/-- Observed `available + held`, read off through
`Account::calculate_total` as the export path does. -/
def sumOf (bank : Bank) (c : ClientId) : Int :=
  ((bank.accountOf c).calculate_total).total.value

/-- A deposit record as parsed from a row (`disputed` is `serde(skip)`,
hence `false`). -/
def depositRec (c : ClientId) (t : TxId) (v : Int) : Tx :=
  ⟨TxType.deposit, c, t, ⟨v⟩, false⟩

/-- A withdrawal record as parsed from a row. -/
def withdrawalRec (c : ClientId) (t : TxId) (v : Int) : Tx :=
  ⟨TxType.withdrawal, c, t, ⟨v⟩, false⟩

/-- A dispute record as parsed from a row (amount field zero). -/
def disputeRec (c : ClientId) (t : TxId) : Tx :=
  ⟨TxType.dispute, c, t, ⟨0⟩, false⟩

/-- A resolve record as parsed from a row. -/
def resolveRec (c : ClientId) (t : TxId) : Tx :=
  ⟨TxType.resolve, c, t, ⟨0⟩, false⟩

/-- A chargeback record as parsed from a row. -/
def chargebackRec (c : ClientId) (t : TxId) : Tx :=
  ⟨TxType.chargeback, c, t, ⟨0⟩, false⟩

/-- Spec-side formula: the sum of the deposit amounts of a record list. -/
def specDepositSum : List Tx → Int
  | [] => 0
  | r :: rs =>
      (if r.type_ = TxType.deposit then r.amount.value else 0) +
        specDepositSum rs

/-- Spec-side formula: the sum of those withdrawal amounts that are
covered by the running available balance (started at `a`) at the moment
they are applied; deposits raise the running balance, covered
withdrawals lower it, uncovered withdrawals leave it unchanged. -/
def specAppliedWithdrawalSum (a : Int) : List Tx → Int
  | [] => 0
  | r :: rs =>
      match r.type_ with
      | TxType.deposit => specAppliedWithdrawalSum (a + r.amount.value) rs
      | TxType.withdrawal =>
          if a ≥ r.amount.value then
            r.amount.value + specAppliedWithdrawalSum (a - r.amount.value) rs
          else specAppliedWithdrawalSum a rs
      | _ => specAppliedWithdrawalSum a rs

/-- A bank holding one deposit of 5.0000 for client 1 under txId 1. -/
def demoBank : Bank := processAll [depositRec 1 1 50000] Bank.new

/-- `demoBank` after a dispute of txId 1: funds held, record disputed. -/
def demoDisputedBank : Bank := process (disputeRec 1 1) demoBank

/-- `demoDisputedBank` after a chargeback of txId 1: account locked. -/
def demoLockedBank : Bank := process (chargebackRec 1 1) demoDisputedBank

/-! ### Map and process helper lemmas -/

theorem mapUpdate_self {α : Type} (m : Nat → Option α) (k : Nat) (v : α) :
    mapUpdate m k v k = some v := by
  simp [mapUpdate]

theorem mapUpdate_ne {α : Type} (m : Nat → Option α) (k k' : Nat) (v : α)
    (h : k' ≠ k) : mapUpdate m k v k' = m k' := by
  simp [mapUpdate, h]

theorem mapUpdate_id {α : Type} (m : Nat → Option α) (k : Nat) (v : α)
    (h : m k = v) : mapUpdate m k v = m := by
  funext k'
  by_cases hk : k' = k
  · simp [mapUpdate, hk, h]
  · simp [mapUpdate, hk]

theorem process_existing (bank : Bank) (r : Tx) (acc : Account)
    (ha : bank.accounts r.client = some acc) (hl : acc.locked = false) :
    process r bank = applyTx r acc bank := by
  simp [process, ha, hl]

theorem process_absent (bank : Bank) (r : Tx)
    (ha : bank.accounts r.client = none) :
    process r bank = applyTx r (Account.new r.client) bank := by
  simp [process, ha]

/-! ### Claim theorems -/

/-- C1: if the account for the record's clientId exists and is locked,
processing the record leaves the whole bank unchanged (no account and no
stored transaction changes) and raises no error, for every record kind. -/
theorem locked_account_discards_record (bank : Bank) (r : Tx) (acc : Account)
    (ha : bank.accounts r.client = some acc) (hl : acc.locked = true) :
    process r bank = bank := by
  simp [process, ha, hl]

/-- C1 witness: a locked demo account; a further deposit is discarded. -/
theorem locked_account_discards_record_witness :
    demoLockedBank.accounts 1 = some ⟨1, ⟨0⟩, ⟨0⟩, ⟨0⟩, true⟩ ∧
    (⟨1, ⟨0⟩, ⟨0⟩, ⟨0⟩, true⟩ : Account).locked = true ∧
    process (depositRec 1 2 10000) demoLockedBank = demoLockedBank :=
  ⟨rfl, rfl,
    locked_account_discards_record demoLockedBank (depositRec 1 2 10000)
      ⟨1, ⟨0⟩, ⟨0⟩, ⟨0⟩, true⟩ rfl rfl⟩

/-- C9: negative balances are reachable: deposit 5.0000, withdraw
5.0000, then dispute the deposit leaves `available = -5.0000`. -/
theorem negative_balance_reachable :
    availOf (processAll
      [depositRec 1 1 50000, withdrawalRec 1 2 50000, disputeRec 1 1]
      Bank.new) 1 = -50000 ∧
    availOf (processAll
      [depositRec 1 1 50000, withdrawalRec 1 2 50000, disputeRec 1 1]
      Bank.new) 1 < 0 :=
  ⟨rfl, by decide⟩

/-- C4 counterexample: a second Dispute on an already-disputed txId is
not a no-op: with the deposit of 5.0000 under dispute (`available = 0`,
`held = 5.0000`), disputing txId 1 again moves the balances once more,
so the ledger state changes. -/
theorem double_dispute_changes_ledger :
    demoDisputedBank.accounts 1 = some ⟨1, ⟨0⟩, ⟨50000⟩, ⟨0⟩, false⟩ ∧
    demoDisputedBank.transactions 1 =
      some ⟨TxType.deposit, 1, 1, ⟨50000⟩, true⟩ ∧
    (process (disputeRec 1 1) demoDisputedBank).accounts 1 =
      some ⟨1, ⟨-50000⟩, ⟨100000⟩, ⟨0⟩, false⟩ ∧
    availOf (process (disputeRec 1 1) demoDisputedBank) 1 ≠
      availOf demoDisputedBank 1 :=
  ⟨rfl, rfl, rfl, by decide⟩

/-- C4 (amended): a Dispute whose stored transaction is already disputed
is processed again rather than discarded: it raises no error but once
more decreases `available` and increases `held` by the stored amount,
leaving the `disputed` flag true. -/
theorem dispute_already_disputed_reapplies (bank : Bank) (r : Tx)
    (acc : Account) (dtx : Tx)
    (ht : r.type_ = TxType.dispute)
    (ha : bank.accounts r.client = some acc) (hl : acc.locked = false)
    (hs : bank.transactions r.tx = some dtx) (_hd : dtx.disputed = true) :
    availOf (process r bank) r.client =
      acc.available.value - dtx.amount.value ∧
    heldOf (process r bank) r.client = acc.held.value + dtx.amount.value ∧
    (process r bank).transactions r.tx = some { dtx with disputed := true } := by
  rw [process_existing bank r acc ha hl]
  refine ⟨?_, ?_, ?_⟩ <;>
    simp [applyTx, dispatch, ht, hs, storeIfBalanceTx, availOf, heldOf,
      Bank.accountOf, mapUpdate_self, mapUpdate]

/-- C4 (amended) witness: the double dispute of the demo deposit. -/
theorem dispute_already_disputed_reapplies_witness :
    availOf (process (disputeRec 1 1) demoDisputedBank) 1 =
      (0 : Int) - 50000 ∧
    heldOf (process (disputeRec 1 1) demoDisputedBank) 1 =
      (50000 : Int) + 50000 ∧
    (process (disputeRec 1 1) demoDisputedBank).transactions 1 =
      some ⟨TxType.deposit, 1, 1, ⟨50000⟩, true⟩ :=
  dispute_already_disputed_reapplies demoDisputedBank (disputeRec 1 1)
    ⟨1, ⟨0⟩, ⟨50000⟩, ⟨0⟩, false⟩ ⟨TxType.deposit, 1, 1, ⟨50000⟩, true⟩
    rfl rfl rfl rfl rfl

theorem applyTx_deposit (bank : Bank) (r : Tx) (acc : Account)
    (ht : r.type_ = TxType.deposit) :
    applyTx r acc bank =
      ⟨mapUpdate bank.transactions r.tx r,
       mapUpdate bank.accounts r.client
         { acc with available := ⟨acc.available.value + r.amount.value⟩ }⟩ := by
  simp [applyTx, dispatch, storeIfBalanceTx, ht]

theorem applyTx_withdrawal (bank : Bank) (r : Tx) (acc : Account)
    (ht : r.type_ = TxType.withdrawal) :
    applyTx r acc bank =
      ⟨mapUpdate bank.transactions r.tx r,
       mapUpdate bank.accounts r.client
         (if acc.available.value ≥ r.amount.value then
           { acc with available := ⟨acc.available.value - r.amount.value⟩ }
         else acc)⟩ := by
  simp [applyTx, dispatch, storeIfBalanceTx, ht]

theorem applyTx_dispute_found (bank : Bank) (r : Tx) (acc : Account) (dtx : Tx)
    (ht : r.type_ = TxType.dispute)
    (hs : bank.transactions r.tx = some dtx) :
    applyTx r acc bank =
      ⟨mapUpdate bank.transactions r.tx { dtx with disputed := true },
       mapUpdate bank.accounts r.client
         { acc with
            available := ⟨acc.available.value - dtx.amount.value⟩
            held := ⟨acc.held.value + dtx.amount.value⟩ }⟩ := by
  simp [applyTx, dispatch, storeIfBalanceTx, ht, hs]

theorem applyTx_dispute_missing (bank : Bank) (r : Tx) (acc : Account)
    (ht : r.type_ = TxType.dispute)
    (hs : bank.transactions r.tx = none) :
    applyTx r acc bank =
      ⟨bank.transactions, mapUpdate bank.accounts r.client acc⟩ := by
  simp [applyTx, dispatch, storeIfBalanceTx, ht, hs]

theorem applyTx_resolve_found (bank : Bank) (r : Tx) (acc : Account) (dtx : Tx)
    (ht : r.type_ = TxType.resolve)
    (hs : bank.transactions r.tx = some dtx) (hd : dtx.disputed = true) :
    applyTx r acc bank =
      ⟨mapUpdate bank.transactions r.tx { dtx with disputed := false },
       mapUpdate bank.accounts r.client
         { acc with
            available := ⟨acc.available.value + dtx.amount.value⟩
            held := ⟨acc.held.value - dtx.amount.value⟩ }⟩ := by
  simp [applyTx, dispatch, storeIfBalanceTx, ht, hs, hd]

theorem applyTx_resolve_noop (bank : Bank) (r : Tx) (acc : Account)
    (ht : r.type_ = TxType.resolve)
    (hs : ∀ dtx : Tx, bank.transactions r.tx = some dtx →
      dtx.disputed = false) :
    applyTx r acc bank =
      ⟨bank.transactions, mapUpdate bank.accounts r.client acc⟩ := by
  cases h : bank.transactions r.tx with
  | none => simp [applyTx, dispatch, storeIfBalanceTx, ht, h]
  | some dtx => simp [applyTx, dispatch, storeIfBalanceTx, ht, h, hs dtx h]

theorem applyTx_chargeback_found (bank : Bank) (r : Tx) (acc : Account)
    (dtx : Tx)
    (ht : r.type_ = TxType.chargeback)
    (hs : bank.transactions r.tx = some dtx) (hd : dtx.disputed = true) :
    applyTx r acc bank =
      ⟨bank.transactions,
       mapUpdate bank.accounts r.client
         { acc with
            locked := true
            held := ⟨acc.held.value - dtx.amount.value⟩ }⟩ := by
  simp [applyTx, dispatch, storeIfBalanceTx, ht, hs, hd]

theorem applyTx_chargeback_noop (bank : Bank) (r : Tx) (acc : Account)
    (ht : r.type_ = TxType.chargeback)
    (hs : ∀ dtx : Tx, bank.transactions r.tx = some dtx →
      dtx.disputed = false) :
    applyTx r acc bank =
      ⟨bank.transactions, mapUpdate bank.accounts r.client acc⟩ := by
  cases h : bank.transactions r.tx with
  | none => simp [applyTx, dispatch, storeIfBalanceTx, ht, h]
  | some dtx => simp [applyTx, dispatch, storeIfBalanceTx, ht, h, hs dtx h]

theorem writeback_self (bank : Bank) (r : Tx) (acc : Account)
    (ha : bank.accounts r.client = some acc) :
    (⟨bank.transactions, mapUpdate bank.accounts r.client acc⟩ : Bank) =
      bank := by
  rw [mapUpdate_id bank.accounts r.client acc ha]

/-- C3: a Dispute against an existing, non-locked account: if the txId is
not in the transaction history the whole ledger is unchanged (no error);
if it is, the account of the dispute's clientId — whatever clientId the
stored transaction carries — loses the stored amount from `available`,
gains it on `held`, and the stored record is flagged disputed. -/
theorem dispute_semantics (bank : Bank) (r : Tx) (acc : Account)
    (ht : r.type_ = TxType.dispute)
    (ha : bank.accounts r.client = some acc) (hl : acc.locked = false) :
    (bank.transactions r.tx = none → process r bank = bank) ∧
    (∀ dtx : Tx, bank.transactions r.tx = some dtx →
      availOf (process r bank) r.client =
        acc.available.value - dtx.amount.value ∧
      heldOf (process r bank) r.client = acc.held.value + dtx.amount.value ∧
      (process r bank).transactions r.tx =
        some { dtx with disputed := true }) := by
  rw [process_existing bank r acc ha hl]
  constructor
  · intro hn
    rw [applyTx_dispute_missing bank r acc ht hn]
    exact writeback_self bank r acc ha
  · intro dtx hs
    rw [applyTx_dispute_found bank r acc dtx ht hs]
    refine ⟨?_, ?_, ?_⟩ <;>
      simp [availOf, heldOf, Bank.accountOf, mapUpdate_self, mapUpdate]

/-- C3 witness: disputing the stored 5.0000 deposit of the demo bank. -/
theorem dispute_semantics_witness :
    availOf (process (disputeRec 1 1) demoBank) 1 = (50000 : Int) - 50000 ∧
    heldOf (process (disputeRec 1 1) demoBank) 1 = (0 : Int) + 50000 ∧
    (process (disputeRec 1 1) demoBank).transactions 1 =
      some ⟨TxType.deposit, 1, 1, ⟨50000⟩, true⟩ :=
  (dispute_semantics demoBank (disputeRec 1 1)
      ⟨1, ⟨50000⟩, ⟨0⟩, ⟨0⟩, false⟩ rfl rfl rfl).2
    ⟨TxType.deposit, 1, 1, ⟨50000⟩, false⟩ rfl

theorem resolve_resolved_noop (bank : Bank) (r : Tx) (acc : Account)
    (ht : r.type_ = TxType.resolve)
    (ha : bank.accounts r.client = some acc) (hl : acc.locked = false)
    (hnd : ∀ dtx : Tx, bank.transactions r.tx = some dtx →
      dtx.disputed = false) :
    process r bank = bank := by
  rw [process_existing bank r acc ha hl,
    applyTx_resolve_noop bank r acc ht hnd]
  exact writeback_self bank r acc ha

/-- C5: a Resolve against an existing, non-locked account is a no-op when
its txId is absent from the history or the stored record is not
disputed; otherwise it returns the stored amount from `held` to
`available` and clears the `disputed` flag.  Consequently a Dispute
immediately followed by a Resolve of the same txId restores `available`
and `held` to their pre-dispute values, and a second Resolve of that
txId is a no-op. -/
theorem resolve_semantics :
    (∀ (bank : Bank) (r : Tx) (acc : Account),
      r.type_ = TxType.resolve →
      bank.accounts r.client = some acc → acc.locked = false →
      ((∀ dtx : Tx, bank.transactions r.tx = some dtx →
          dtx.disputed = false) → process r bank = bank) ∧
      (∀ dtx : Tx, bank.transactions r.tx = some dtx → dtx.disputed = true →
        availOf (process r bank) r.client =
          acc.available.value + dtx.amount.value ∧
        heldOf (process r bank) r.client =
          acc.held.value - dtx.amount.value ∧
        (process r bank).transactions r.tx =
          some { dtx with disputed := false })) ∧
    (∀ (bank : Bank) (d r : Tx) (acc : Account) (dtx : Tx),
      d.type_ = TxType.dispute → r.type_ = TxType.resolve →
      r.client = d.client → r.tx = d.tx →
      bank.accounts r.client = some acc → acc.locked = false →
      bank.transactions r.tx = some dtx →
      availOf (process r (process d bank)) r.client =
        acc.available.value ∧
      heldOf (process r (process d bank)) r.client = acc.held.value ∧
      (process r (process d bank)).transactions r.tx =
        some { dtx with disputed := false } ∧
      process r (process r (process d bank)) =
        process r (process d bank)) := by
  constructor
  · intro bank r acc ht ha hl
    constructor
    · intro hnd
      exact resolve_resolved_noop bank r acc ht ha hl hnd
    · intro dtx hs hd
      rw [process_existing bank r acc ha hl,
        applyTx_resolve_found bank r acc dtx ht hs hd]
      refine ⟨?_, ?_, ?_⟩ <;>
        simp [availOf, heldOf, Bank.accountOf, mapUpdate_self, mapUpdate]
  · intro bank d r acc dtx htd htr hrc hrt ha hl hs
    have had : bank.accounts d.client = some acc := hrc ▸ ha
    have hsd : bank.transactions d.tx = some dtx := hrt ▸ hs
    have hb1 : process d bank =
        ⟨mapUpdate bank.transactions d.tx { dtx with disputed := true },
         mapUpdate bank.accounts d.client
           { acc with
              available := ⟨acc.available.value - dtx.amount.value⟩
              held := ⟨acc.held.value + dtx.amount.value⟩ }⟩ := by
      rw [process_existing bank d acc had hl]
      exact applyTx_dispute_found bank d acc dtx htd hsd
    have ha1 : (process d bank).accounts r.client =
        some { acc with
                available := ⟨acc.available.value - dtx.amount.value⟩
                held := ⟨acc.held.value + dtx.amount.value⟩ } := by
      rw [hb1, hrc]; exact mapUpdate_self _ _ _
    have hs1 : (process d bank).transactions r.tx =
        some { dtx with disputed := true } := by
      rw [hb1, hrt]; exact mapUpdate_self _ _ _
    have hb2 : process r (process d bank) =
        ⟨mapUpdate (process d bank).transactions r.tx
          { dtx with disputed := false },
         mapUpdate (process d bank).accounts r.client
           { acc with
              available :=
                ⟨acc.available.value - dtx.amount.value + dtx.amount.value⟩
              held :=
                ⟨acc.held.value + dtx.amount.value - dtx.amount.value⟩ }⟩ := by
      rw [process_existing (process d bank) r _ ha1 hl]
      exact applyTx_resolve_found (process d bank) r _
        { dtx with disputed := true } htr hs1 rfl
    refine ⟨?_, ?_, ?_, ?_⟩
    · rw [hb2]
      simp [availOf, Bank.accountOf, mapUpdate_self, mapUpdate]
    · rw [hb2]
      simp [heldOf, Bank.accountOf, mapUpdate_self, mapUpdate]
    · rw [hb2]
      simp [mapUpdate_self, mapUpdate]
    · refine resolve_resolved_noop (process r (process d bank)) r
        { acc with
            available :=
              ⟨acc.available.value - dtx.amount.value + dtx.amount.value⟩
            held :=
              ⟨acc.held.value + dtx.amount.value - dtx.amount.value⟩ }
        htr ?_ hl ?_
      · rw [hb2]; exact mapUpdate_self _ _ _
      · intro dtx' h'
        rw [hb2] at h'
        have h2 : some { dtx with disputed := false } = some dtx' :=
          ((mapUpdate_self (process d bank).transactions r.tx
            { dtx with disputed := false }).symm).trans h'
        injection h2 with h3
        rw [← h3]

/-- C5 witness: dispute then resolve of the demo deposit restores the
balances, and a further resolve changes nothing. -/
theorem resolve_semantics_witness :
    availOf (process (resolveRec 1 1) (process (disputeRec 1 1) demoBank))
      1 = (50000 : Int) ∧
    heldOf (process (resolveRec 1 1) (process (disputeRec 1 1) demoBank))
      1 = (0 : Int) ∧
    (process (resolveRec 1 1)
      (process (disputeRec 1 1) demoBank)).transactions 1 =
      some ⟨TxType.deposit, 1, 1, ⟨50000⟩, false⟩ ∧
    process (resolveRec 1 1)
        (process (resolveRec 1 1) (process (disputeRec 1 1) demoBank)) =
      process (resolveRec 1 1) (process (disputeRec 1 1) demoBank) :=
  resolve_semantics.2 demoBank (disputeRec 1 1) (resolveRec 1 1)
    ⟨1, ⟨50000⟩, ⟨0⟩, ⟨0⟩, false⟩ ⟨TxType.deposit, 1, 1, ⟨50000⟩, false⟩
    rfl rfl rfl rfl rfl rfl rfl

/-- C6: a Chargeback against an existing, non-locked account is a no-op
when its txId is absent or the stored record is not disputed; otherwise
it locks the account, deducts the stored amount from `held`, leaves
`available` unchanged, and keeps the stored record's `disputed` flag
true (the record itself is untouched). -/
theorem chargeback_semantics (bank : Bank) (r : Tx) (acc : Account)
    (ht : r.type_ = TxType.chargeback)
    (ha : bank.accounts r.client = some acc) (hl : acc.locked = false) :
    ((∀ dtx : Tx, bank.transactions r.tx = some dtx →
        dtx.disputed = false) → process r bank = bank) ∧
    (∀ dtx : Tx, bank.transactions r.tx = some dtx → dtx.disputed = true →
      lockedOf (process r bank) r.client = true ∧
      heldOf (process r bank) r.client = acc.held.value - dtx.amount.value ∧
      availOf (process r bank) r.client = acc.available.value ∧
      (process r bank).transactions r.tx = some dtx) := by
  constructor
  · intro hnd
    rw [process_existing bank r acc ha hl,
      applyTx_chargeback_noop bank r acc ht hnd]
    exact writeback_self bank r acc ha
  · intro dtx hs hd
    rw [process_existing bank r acc ha hl,
      applyTx_chargeback_found bank r acc dtx ht hs hd]
    refine ⟨?_, ?_, ?_, ?_⟩ <;>
      simp [availOf, heldOf, lockedOf, Bank.accountOf,
        mapUpdate_self, mapUpdate, hs]

/-- C6 witness: charging back the disputed demo deposit locks the
account, clears `held`, leaves `available` at zero, and keeps the stored
record disputed. -/
theorem chargeback_semantics_witness :
    lockedOf (process (chargebackRec 1 1) demoDisputedBank) 1 = true ∧
    heldOf (process (chargebackRec 1 1) demoDisputedBank) 1 =
      (50000 : Int) - 50000 ∧
    availOf (process (chargebackRec 1 1) demoDisputedBank) 1 = (0 : Int) ∧
    (process (chargebackRec 1 1) demoDisputedBank).transactions 1 =
      some ⟨TxType.deposit, 1, 1, ⟨50000⟩, true⟩ :=
  (chargeback_semantics demoDisputedBank (chargebackRec 1 1)
      ⟨1, ⟨0⟩, ⟨50000⟩, ⟨0⟩, false⟩ rfl rfl rfl).2
    ⟨TxType.deposit, 1, 1, ⟨50000⟩, true⟩ rfl rfl

/-- C7: effect of one record on the transaction history, for an
existing, non-locked account: a Deposit or Withdrawal record (parsed
with `disputed = false`) is stored under its own txId — overwriting any
prior entry, and also when the withdrawal fails — while every other key
is untouched; a Dispute, Resolve or Chargeback leaves every key other
than the referenced txId untouched and at the referenced txId either
leaves the entry as it was or only rewrites its `disputed` flag. -/
theorem history_frame (bank : Bank) (r : Tx) (acc : Account)
    (ha : bank.accounts r.client = some acc) (hl : acc.locked = false) :
    ((r.type_ = TxType.deposit ∨ r.type_ = TxType.withdrawal) →
      r.disputed = false →
      (process r bank).transactions r.tx = some r ∧
      ∀ t, t ≠ r.tx →
        (process r bank).transactions t = bank.transactions t) ∧
    ((r.type_ = TxType.dispute ∨ r.type_ = TxType.resolve ∨
        r.type_ = TxType.chargeback) →
      (∀ t, t ≠ r.tx →
        (process r bank).transactions t = bank.transactions t) ∧
      ((process r bank).transactions r.tx = bank.transactions r.tx ∨
        ∃ dtx : Tx, ∃ b : Bool, bank.transactions r.tx = some dtx ∧
          (process r bank).transactions r.tx =
            some { dtx with disputed := b })) := by
  rw [process_existing bank r acc ha hl]
  constructor
  · rintro (ht | ht) _ <;>
      [rw [applyTx_deposit bank r acc ht];
       rw [applyTx_withdrawal bank r acc ht]] <;>
      exact ⟨mapUpdate_self _ _ _, fun t htt => mapUpdate_ne _ _ _ _ htt⟩
  · rintro (ht | ht | ht)
    · cases hs : bank.transactions r.tx with
      | none =>
          rw [applyTx_dispute_missing bank r acc ht hs]
          exact ⟨fun t _ => rfl, Or.inl hs⟩
      | some dtx =>
          rw [applyTx_dispute_found bank r acc dtx ht hs]
          exact ⟨fun t htt => mapUpdate_ne _ _ _ _ htt,
            Or.inr ⟨dtx, true, rfl, mapUpdate_self _ _ _⟩⟩
    · cases hs : bank.transactions r.tx with
      | none =>
          rw [applyTx_resolve_noop bank r acc ht
            (fun dtx h => by rw [hs] at h; exact absurd h (by simp))]
          exact ⟨fun t _ => rfl, Or.inl hs⟩
      | some dtx =>
          cases hd : dtx.disputed with
          | false =>
              rw [applyTx_resolve_noop bank r acc ht
                (fun dtx' h => by rw [hs] at h; injection h with h2; rw [← h2, hd])]
              exact ⟨fun t _ => rfl, Or.inl hs⟩
          | true =>
              rw [applyTx_resolve_found bank r acc dtx ht hs hd]
              exact ⟨fun t htt => mapUpdate_ne _ _ _ _ htt,
                Or.inr ⟨dtx, false, rfl, mapUpdate_self _ _ _⟩⟩
    · cases hs : bank.transactions r.tx with
      | none =>
          rw [applyTx_chargeback_noop bank r acc ht
            (fun dtx h => by rw [hs] at h; exact absurd h (by simp))]
          exact ⟨fun t _ => rfl, Or.inl hs⟩
      | some dtx =>
          cases hd : dtx.disputed with
          | false =>
              rw [applyTx_chargeback_noop bank r acc ht
                (fun dtx' h => by rw [hs] at h; injection h with h2; rw [← h2, hd])]
              exact ⟨fun t _ => rfl, Or.inl hs⟩
          | true =>
              rw [applyTx_chargeback_found bank r acc dtx ht hs hd]
              exact ⟨fun t _ => rfl, Or.inl hs⟩

/-- C7 witness: a fresh deposit of client 1 lands in the demo bank's
history under its txId 5 and the entry at txId 1 is untouched. -/
theorem history_frame_witness :
    (process (depositRec 1 5 777) demoBank).transactions 5 =
      some (depositRec 1 5 777) ∧
    (process (depositRec 1 5 777) demoBank).transactions 1 =
      demoBank.transactions 1 :=
  ⟨((history_frame demoBank (depositRec 1 5 777)
        ⟨1, ⟨50000⟩, ⟨0⟩, ⟨0⟩, false⟩ rfl rfl).1 (Or.inl rfl) rfl).1,
   ((history_frame demoBank (depositRec 1 5 777)
        ⟨1, ⟨50000⟩, ⟨0⟩, ⟨0⟩, false⟩ rfl rfl).1 (Or.inl rfl) rfl).2
     1 (by decide)⟩

theorem avail_step_deposit (bank : Bank) (r : Tx)
    (ht : r.type_ = TxType.deposit) (hl : lockedOf bank r.client = false) :
    availOf (process r bank) r.client = availOf bank r.client +
      r.amount.value ∧
    lockedOf (process r bank) r.client = false := by
  cases h : bank.accounts r.client with
  | none =>
      rw [process_absent bank r h, applyTx_deposit bank r _ ht]
      constructor <;>
        simp [availOf, lockedOf, Bank.accountOf, mapUpdate_self, mapUpdate,
          h, Account.new, Amount.new]
  | some acc =>
      have hal : acc.locked = false := by
        simpa [lockedOf, Bank.accountOf, h] using hl
      rw [process_existing bank r acc h hal, applyTx_deposit bank r acc ht]
      constructor <;>
        simp [availOf, lockedOf, Bank.accountOf, mapUpdate_self, mapUpdate,
          h, hal]

theorem avail_step_withdrawal (bank : Bank) (r : Tx)
    (ht : r.type_ = TxType.withdrawal)
    (hl : lockedOf bank r.client = false) :
    availOf (process r bank) r.client =
      (if availOf bank r.client ≥ r.amount.value then
        availOf bank r.client - r.amount.value
      else availOf bank r.client) ∧
    lockedOf (process r bank) r.client = false := by
  cases h : bank.accounts r.client with
  | none =>
      rw [process_absent bank r h, applyTx_withdrawal bank r _ ht]
      constructor
      · simp [availOf, lockedOf, Bank.accountOf, mapUpdate_self, mapUpdate,
          h, Account.new, Amount.new]
        by_cases hcc : r.amount.value ≤ (0 : Int) <;> simp [hcc]
      · simp [availOf, lockedOf, Bank.accountOf, mapUpdate_self, mapUpdate,
          h, Account.new, Amount.new]
        by_cases hcc : r.amount.value ≤ (0 : Int) <;> simp [hcc]
  | some acc =>
      have hal : acc.locked = false := by
        simpa [lockedOf, Bank.accountOf, h] using hl
      rw [process_existing bank r acc h hal, applyTx_withdrawal bank r acc ht]
      by_cases hc : acc.available.value ≥ r.amount.value <;>
        constructor <;>
        simp [availOf, lockedOf, Bank.accountOf, mapUpdate_self, mapUpdate,
          h, hc, hal]

theorem replay_avail (recs : List Tx) : ∀ (bank : Bank) (c : ClientId),
    (∀ r ∈ recs, r.client = c ∧
      (r.type_ = TxType.deposit ∨ r.type_ = TxType.withdrawal)) →
    lockedOf bank c = false →
    availOf (processAll recs bank) c =
      availOf bank c + specDepositSum recs -
        specAppliedWithdrawalSum (availOf bank c) recs := by
  induction recs with
  | nil => intro bank c _ _; simp [processAll, specDepositSum,
      specAppliedWithdrawalSum]
  | cons r rs ih =>
      intro bank c hmem hl
      obtain ⟨hc, hk⟩ := hmem r (List.mem_cons_self r rs)
      have hmem' : ∀ r' ∈ rs, r'.client = c ∧
          (r'.type_ = TxType.deposit ∨ r'.type_ = TxType.withdrawal) :=
        fun r' h' => hmem r' (List.mem_cons_of_mem r h')
      have hlr : lockedOf bank r.client = false := by rw [hc]; exact hl
      have hrec : processAll (r :: rs) bank = processAll rs (process r bank) :=
        rfl
      cases hk with
      | inl ht =>
          have step := avail_step_deposit bank r ht hlr
          have step1 : availOf (process r bank) c =
              availOf bank c + r.amount.value := by
            rw [← hc]; exact step.1
          have step2 : lockedOf (process r bank) c = false := by
            rw [← hc]; exact step.2
          rw [hrec, ih (process r bank) c hmem' step2, step1]
          simp [specDepositSum, specAppliedWithdrawalSum, ht]
          omega
      | inr ht =>
          have step := avail_step_withdrawal bank r ht hlr
          have step1 : availOf (process r bank) c =
              (if availOf bank c ≥ r.amount.value then
                availOf bank c - r.amount.value
              else availOf bank c) := by
            rw [← hc]; exact step.1
          have step2 : lockedOf (process r bank) c = false := by
            rw [← hc]; exact step.2
          rw [hrec, ih (process r bank) c hmem' step2, step1]
          by_cases hcov : availOf bank c ≥ r.amount.value
          · rw [if_pos hcov]
            simp [specDepositSum, specAppliedWithdrawalSum, ht, hcov]
            omega
          · rw [if_neg hcov]
            simp [specDepositSum, specAppliedWithdrawalSum, ht, hcov]

/-- C2: replaying any single-client stream of deposits and withdrawals
from a fresh bank leaves `available` equal to the sum of the deposit
amounts minus the sum of those withdrawal amounts that were covered by
the running available balance when applied; and a withdrawal exceeding
the available balance leaves `available` unchanged. -/
theorem deposit_withdrawal_replay :
    (∀ (recs : List Tx) (c : ClientId),
      (∀ r ∈ recs, r.client = c ∧
        (r.type_ = TxType.deposit ∨ r.type_ = TxType.withdrawal)) →
      availOf (processAll recs Bank.new) c =
        specDepositSum recs - specAppliedWithdrawalSum 0 recs) ∧
    (∀ (bank : Bank) (r : Tx),
      r.type_ = TxType.withdrawal → lockedOf bank r.client = false →
      availOf bank r.client < r.amount.value →
      availOf (process r bank) r.client = availOf bank r.client) := by
  constructor
  · intro recs c hmem
    have h0 : availOf Bank.new c = 0 := rfl
    have := replay_avail recs Bank.new c hmem rfl
    rw [h0] at this
    omega
  · intro bank r ht hl hlt
    have step := avail_step_withdrawal bank r ht hl
    rw [step.1, if_neg (by omega)]

/-- C2 witness: deposit 3.0000, withdraw 1.0000, then try to withdraw
5.0000 for client 1: the formula applies to this stream. -/
theorem deposit_withdrawal_replay_witness :
    availOf (processAll
      [depositRec 1 1 30000, withdrawalRec 1 2 10000,
       withdrawalRec 1 3 50000] Bank.new) 1 =
      specDepositSum
        [depositRec 1 1 30000, withdrawalRec 1 2 10000,
         withdrawalRec 1 3 50000] -
      specAppliedWithdrawalSum 0
        [depositRec 1 1 30000, withdrawalRec 1 2 10000,
         withdrawalRec 1 3 50000] :=
  deposit_withdrawal_replay.1
    [depositRec 1 1 30000, withdrawalRec 1 2 10000,
     withdrawalRec 1 3 50000] 1 (by decide)

theorem process_locked (bank : Bank) (r : Tx) (acc : Account)
    (ha : bank.accounts r.client = some acc) (hl : acc.locked = true) :
    process r bank = bank := by
  simp [process, ha, hl]

theorem sumOf_some (bank : Bank) (c : ClientId) (acc : Account)
    (h : bank.accounts c = some acc) :
    sumOf bank c = acc.available.value + acc.held.value := by
  simp [sumOf, Bank.accountOf, h, Account.calculate_total]

theorem sumOf_none (bank : Bank) (c : ClientId)
    (h : bank.accounts c = none) : sumOf bank c = 0 := by
  simp [sumOf, Bank.accountOf, h, Account.calculate_total, Account.new,
    Amount.new]

theorem sumOf_applyTx_ne (bank : Bank) (r : Tx) (acc : Account)
    (c : ClientId) (hc : c ≠ r.client) :
    sumOf (applyTx r acc bank) c = sumOf bank c := by
  simp [sumOf, applyTx, Bank.accountOf, mapUpdate, hc]

theorem sumOf_applyTx_self (bank : Bank) (r : Tx) (acc : Account) :
    sumOf (applyTx r acc bank) r.client =
      (dispatch r acc bank.transactions).1.available.value +
        (dispatch r acc bank.transactions).1.held.value := by
  simp [sumOf, applyTx, Bank.accountOf, mapUpdate, Account.calculate_total]

theorem dispatch_sum_preserved (r : Tx) (acc : Account)
    (txs : TxId → Option Tx)
    (h : r.type_ = TxType.dispute ∨ r.type_ = TxType.resolve ∨
      (r.type_ = TxType.withdrawal ∧
        ¬ acc.available.value ≥ r.amount.value) ∨
      (r.type_ = TxType.chargeback ∧
        ∀ dtx : Tx, txs r.tx = some dtx → dtx.disputed = false)) :
    (dispatch r acc txs).1.available.value +
      (dispatch r acc txs).1.held.value =
    acc.available.value + acc.held.value := by
  rcases h with ht | ht | ⟨ht, hcov⟩ | ⟨ht, hnd⟩
  · cases hs : txs r.tx with
    | none => simp [dispatch, ht, hs]
    | some dtx => simp [dispatch, ht, hs]
  · cases hs : txs r.tx with
    | none => simp [dispatch, ht, hs]
    | some dtx =>
        cases hd : dtx.disputed with
        | false => simp [dispatch, ht, hs, hd]
        | true => simp [dispatch, ht, hs, hd]
  · simp [dispatch, ht, hcov]
  · cases hs : txs r.tx with
    | none => simp [dispatch, ht, hs]
    | some dtx => simp [dispatch, ht, hs, hnd dtx hs]

theorem process_sum_preserved (bank : Bank) (r : Tx) (c : ClientId)
    (h : r.type_ = TxType.dispute ∨ r.type_ = TxType.resolve ∨
      (r.type_ = TxType.withdrawal ∧
        ¬ availOf bank r.client ≥ r.amount.value) ∨
      (r.type_ = TxType.chargeback ∧
        ∀ dtx : Tx, bank.transactions r.tx = some dtx →
          dtx.disputed = false)) :
    sumOf (process r bank) c = sumOf bank c := by
  cases ha : bank.accounts r.client with
  | some acc =>
      cases hal : acc.locked with
      | true => rw [process_locked bank r acc ha hal]
      | false =>
          rw [process_existing bank r acc ha hal]
          by_cases hc : c = r.client
          · have hav : availOf bank r.client = acc.available.value := by
              simp [availOf, Bank.accountOf, ha]
            rw [hc, sumOf_applyTx_self bank r acc,
              sumOf_some bank r.client acc ha]
            apply dispatch_sum_preserved
            rw [hav] at h
            exact h
          · rw [sumOf_applyTx_ne bank r acc c hc]
  | none =>
      rw [process_absent bank r ha]
      by_cases hc : c = r.client
      · have hav : availOf bank r.client =
            (Account.new r.client).available.value := by
          simp [availOf, Bank.accountOf, ha]
        rw [hc, sumOf_applyTx_self bank r (Account.new r.client),
          sumOf_none bank r.client ha,
          dispatch_sum_preserved r (Account.new r.client) bank.transactions
            (hav ▸ h)]
        rfl
      · rw [sumOf_applyTx_ne bank r _ c hc]

/-- C10: a Dispute or Resolve against a non-locked account preserves the
`available + held` sum (computed as `Account::calculate_total` does) of
every account; conversely, the only records that can change some
account's `available + held` are a Deposit, a covered Withdrawal, or a
Chargeback of a live dispute, and only on their own clientId. -/
theorem sum_conservation :
    (∀ (bank : Bank) (r : Tx),
      (∀ acc : Account, bank.accounts r.client = some acc →
        acc.locked = false) →
      (r.type_ = TxType.dispute ∨ r.type_ = TxType.resolve) →
      ∀ c, sumOf (process r bank) c = sumOf bank c) ∧
    (∀ (bank : Bank) (r : Tx) (c : ClientId),
      sumOf (process r bank) c ≠ sumOf bank c →
      r.client = c ∧
      (r.type_ = TxType.deposit ∨
       (r.type_ = TxType.withdrawal ∧ availOf bank c ≥ r.amount.value) ∨
       (r.type_ = TxType.chargeback ∧
         ∃ dtx : Tx, bank.transactions r.tx = some dtx ∧
           dtx.disputed = true))) := by
  constructor
  · intro bank r _ hk c
    apply process_sum_preserved bank r c
    rcases hk with ht | ht
    · exact Or.inl ht
    · exact Or.inr (Or.inl ht)
  · intro bank r c hne
    by_cases hcl : r.client = c
    · refine ⟨hcl, ?_⟩
      cases htk : r.type_ with
      | deposit => exact Or.inl rfl
      | withdrawal =>
          by_cases hcov : availOf bank c ≥ r.amount.value
          · exact Or.inr (Or.inl ⟨rfl, hcov⟩)
          · exact absurd (process_sum_preserved bank r c
              (Or.inr (Or.inr (Or.inl ⟨htk, by rw [hcl]; exact hcov⟩)))) hne
      | dispute =>
          exact absurd (process_sum_preserved bank r c (Or.inl htk)) hne
      | resolve =>
          exact absurd (process_sum_preserved bank r c
            (Or.inr (Or.inl htk))) hne
      | chargeback =>
          cases hs : bank.transactions r.tx with
          | none =>
              exact absurd (process_sum_preserved bank r c
                (Or.inr (Or.inr (Or.inr ⟨htk, fun dtx h => by
                  rw [hs] at h; cases h⟩)))) hne
          | some dtx =>
              cases hd : dtx.disputed with
              | true => exact Or.inr (Or.inr ⟨rfl, dtx, rfl, hd⟩)
              | false =>
                  exact absurd (process_sum_preserved bank r c
                    (Or.inr (Or.inr (Or.inr ⟨htk, fun dtx' h => by
                      rw [hs] at h; injection h with h2; rw [← h2]
                      exact hd⟩)))) hne
    · exfalso
      apply hne
      have hc : c ≠ r.client := fun hh => hcl hh.symm
      cases ha : bank.accounts r.client with
      | some acc =>
          cases hal : acc.locked with
          | true => rw [process_locked bank r acc ha hal]
          | false =>
              rw [process_existing bank r acc ha hal,
                sumOf_applyTx_ne bank r acc c hc]
      | none =>
          rw [process_absent bank r ha, sumOf_applyTx_ne bank r _ c hc]

/-- C10 witness: disputing the stored demo deposit moves 5.0000 from
`available` to `held` but keeps the sum of the two fields. -/
theorem sum_conservation_witness :
    sumOf (process (disputeRec 1 1) demoBank) 1 = sumOf demoBank 1 :=
  sum_conservation.1 demoBank (disputeRec 1 1)
    (fun acc h => by injection h with h2; rw [← h2]; rfl) (Or.inl rfl) 1
